import Mathlib

/-!
Verification of the SpendSense backend specification against the repository.

The repository ships one source file, `src/components/Dashboard.tsx`: the
client dashboard that uploads a document, shows a simulated progress bar while
the single `process` call is pending, and renders the returned processing
result.  The processing pipeline itself (format detector, layout extractors,
normalizer, aggregator, session store) is described by the specification but
its code is not part of the repository; those components are modelled here
from the specification text, and each such definition is marked
`Modelled from the spec:` in its doc comment.

Numeric amounts are modelled as exact rationals, matching the
specification's "signed exact decimal quantity"; calendar dates are modelled
as natural numbers (day ordinals), which preserves exactly the ordering
structure the claims use.
-/

namespace SpendSense

/-- The `ProcessingState` union type of `Dashboard.tsx` (line 23):
`'idle' | 'uploading' | 'processing' | 'completed' | 'error'`. -/
inductive ProcessingState where
  | idle
  | uploading
  | processing
  | completed
  | error
deriving DecidableEq, Repr

/-- Modelled from the spec: a canonical transaction record (§3) — the
normalizer's output consumed by the aggregator.  `date` is a calendar date
with no time component, modelled as a day ordinal; `amount` is a signed exact
decimal quantity, modelled as an exact rational; `category` is the derived
label (or the explicit "uncategorized" marker). -/
structure Transaction where
  date : Nat
  description : String
  amount : ℚ
  category : String
deriving DecidableEq, Repr

/-- The `date_range` object of `ProcessingData` in `Dashboard.tsx`
(lines 32-35) carries `min_date` and `max_date`; in the pipeline model the
two bounds are calendar dates (day ordinals). -/
structure DateRange where
  min_date : Nat
  max_date : Nat
deriving DecidableEq, Repr

/-- Modelled from the spec: the `ProcessingResult` record (§3) — format tag,
exact total, transaction count, per-category totals (an association list
whose keys are exactly the distinct category labels present), optional date
range, and the full ordered transaction list.  The field layout mirrors the
`ProcessingData` interface of `Dashboard.tsx` (lines 25-37), which receives
this record from the backend. -/
structure ProcessingResult where
  format_type : String
  total_amount : ℚ
  transaction_count : Nat
  totals : List (String × ℚ)
  date_range : Option DateRange
  transactions : List Transaction
deriving DecidableEq, Repr

/-- The display label for the detected format in the success message of
`Dashboard.tsx` (line 232):
`processingData.format_type === 'original' ? 'Оригинальный' : 'RBC'`. -/
def formatLabel (format_type : String) : String :=
  if format_type = "original" then "Оригинальный" else "RBC"

/-- One tick of the simulated progress interval in `Dashboard.tsx`
(lines 52-54): `setProgress(prev => Math.min(prev + 5, 90))`. -/
def progressTick (p : Nat) : Nat := min (p + 5) 90

/-- The displayed progress value after `n` ticks of the simulated interval,
starting from `setProgress(0)` (`Dashboard.tsx` line 47). -/
def progressAfter : Nat → Nat
  | 0 => 0
  | n + 1 => progressTick (progressAfter n)

/-- The two ways the awaited `apiClient.processPdf` call in
`handleUploadComplete` can settle: with a result record, or by throwing.
A thrown value is an `Error` with a message (`some msg`) or some other
value (`none`), matching the `err instanceof Error` test on line 73. -/
inductive ProcessOutcome where
  | success (result : ProcessingResult)
  | failure (err : Option String)
deriving DecidableEq

/-- The progress value `handleUploadComplete` leaves in place once the
`process` call has settled: `setProgress(100)` on the success path
(`Dashboard.tsx` line 59), `setProgress(0)` in the catch block (line 74). -/
def finalProgress : ProcessOutcome → Nat
  | .success _ => 100
  | .failure _ => 0

/-- The error text stored by the catch block of `handleUploadComplete`
(`Dashboard.tsx` line 73):
`err instanceof Error ? err.message : 'Ошибка обработки файла'`. -/
def caughtErrorText : Option String → String
  | some msg => msg
  | none => "Ошибка обработки файла"

/-- Modelled from the spec: the generic user-facing message for
`InternalError` (§7) — the single fixed text shown for any unexpected
failure; the repository does not contain the backend code that produces it. -/
def internalErrorMessage : String := "Внутренняя ошибка сервера"

/-- Modelled from the spec: how the backend surfaces an unexpected failure
(§7, `InternalError`): the internal detail is logged, and the caller receives
only the generic message, whatever the detail was. -/
def surfaceInternal (_detail : String) : String := internalErrorMessage

/-- The mutually exclusive main views of the dashboard render
(`Dashboard.tsx` lines 140-242): the idle upload screen, the progress card
(states `uploading` and `processing`), the error alert, the completed view
(guarded by `state === 'completed' && processingData`), or nothing. -/
inductive MainView where
  | idleView
  | progressView (progress : Nat)
  | errorView (msg : String)
  | completedView (data : ProcessingResult)
  | blank
deriving DecidableEq

/-- The main-content render of `Dashboard.tsx` (lines 140-242) as a function
of the component state.  The completed branch reproduces the guard on line
219: `state === 'completed' && processingData && (...)` — with a `null`
`processingData` nothing is rendered. -/
def renderMain (state : ProcessingState) (processingData : Option ProcessingResult)
    (progress : Nat) (errMsg : String) : MainView :=
  match state with
  | .idle => .idleView
  | .uploading => .progressView progress
  | .processing => .progressView progress
  | .error => .errorView errMsg
  | .completed =>
    match processingData with
    | some d => .completedView d
    | none => .blank

/-- Modelled from the spec: the aggregator's running state while it reduces
the transaction sequence (§4.4) — running exact total, count, per-category
totals, and the date range seen so far. -/
structure AggState where
  total : ℚ
  count : Nat
  catTotals : List (String × ℚ)
  range : Option DateRange
deriving DecidableEq, Repr

/-- Modelled from the spec: add `amount` to the entry of `category` in the
per-category totals, creating the entry when the label is new, so that the
keys are exactly the distinct category labels seen (§3, `totals`). -/
def bumpTotals : List (String × ℚ) → String → ℚ → List (String × ℚ)
  | [], category, amount => [(category, amount)]
  | (k, v) :: rest, category, amount =>
    if k = category then (k, v + amount) :: rest
    else (k, v) :: bumpTotals rest category amount

/-- Modelled from the spec: widen the optional date range to include one more
transaction date (§3, `date_range`: minimum and maximum transaction date). -/
def extendRange : Option DateRange → Nat → Option DateRange
  | none, d => some ⟨d, d⟩
  | some r, d => some ⟨min r.min_date d, max r.max_date d⟩

/-- Modelled from the spec: one reduction step of the aggregator (§4.4),
folding a single canonical transaction into the running state. -/
def aggStep (s : AggState) (t : Transaction) : AggState :=
  { total := s.total + t.amount
    count := s.count + 1
    catTotals := bumpTotals s.catTotals t.category t.amount
    range := extendRange s.range t.date }

/-- Modelled from the spec: the aggregator (§4.4) — a pure, total reduction
of the canonical transaction sequence into a `ProcessingResult`; the
transaction list itself is retained in document order (§3). -/
def aggregate (format_type : String) (ts : List Transaction) : ProcessingResult :=
  let s := ts.foldl aggStep ⟨0, 0, [], none⟩
  { format_type := format_type
    total_amount := s.total
    transaction_count := s.count
    totals := s.catTotals
    date_range := s.range
    transactions := ts }

/-- Modelled from the spec: document-level pipeline failures (§7) — the
unrecognized-format case and the no-valid-rows-at-all case.  Row-scoped
normalization failures are not represented here: they become warnings. -/
inductive DocError where
  | unsupportedFormat
  | extractionFailed
deriving DecidableEq, Repr

/-- Modelled from the spec: an unvalidated raw row as found in the document
(§3, `RawRow`) — date text, description text, amount text. -/
structure RawRow where
  dateText : String
  descText : String
  amountText : String
deriving DecidableEq, Repr

/-- Modelled from the spec: run the (format-parametrized) normalizer over
every raw row (§4.3): a row that normalizes becomes a canonical transaction;
a row that fails is excluded and its reason recorded as a warning, never
aborting the batch.  Returns the canonical transactions in document order
together with the warnings. -/
def normalizeRows (norm : RawRow → Except String Transaction) :
    List RawRow → List Transaction × List String
  | [] => ([], [])
  | r :: rs =>
    let rest := normalizeRows norm rs
    match norm r with
    | .ok t => (t :: rest.1, rest.2)
    | .error e => (rest.1, e :: rest.2)

/-- Modelled from the spec: the document pipeline behind one `process` call
(§2 data flow, §7 propagation policy).  The detector either classifies the
document or fails with `UnsupportedFormatError`; the selected extractor must
locate at least one raw row or the document fails with `ExtractionError`;
normalization failures stay row-scoped and the aggregator runs on the
surviving rows.  The detector, extractors and normalizer are parameters:
their internals are not in the repository. -/
def runPipeline (detect : String → Option String)
    (extract : String → String → List RawRow)
    (norm : String → RawRow → Except String Transaction)
    (doc : String) : Except DocError (ProcessingResult × List String) :=
  match detect doc with
  | none => .error .unsupportedFormat
  | some fmt =>
    match extract fmt doc with
    | [] => .error .extractionFailed
    | r :: rs =>
      let normed := normalizeRows (norm fmt) (r :: rs)
      .ok (aggregate fmt normed.1, normed.2)

/-- Modelled from the spec: the per-session lifecycle state (§4.5):
`created` (holding the raw document), `processing`, `completed` (terminal,
holding the immutable result and its warnings) or `failed` (terminal,
holding the error). -/
inductive SessionPhase where
  | created (doc : String)
  | processing
  | completed (result : ProcessingResult) (warnings : List String)
  | failed (err : DocError)
deriving DecidableEq

/-- Modelled from the spec: look a session id up in the session registry,
an association list from id to lifecycle phase (§4.5). -/
def lookupSession : List (String × SessionPhase) → String → Option SessionPhase
  | [], _ => none
  | (k, v) :: rest, sid => if k = sid then some v else lookupSession rest sid

/-- Modelled from the spec: store a session phase under an id in the
registry, replacing the entry when the id is present (§4.5, `put`). -/
def setSession : List (String × SessionPhase) → String → SessionPhase →
    List (String × SessionPhase)
  | [], sid, p => [(sid, p)]
  | (k, v) :: rest, sid, p =>
    if k = sid then (k, p) :: rest else (k, v) :: setSession rest sid p

/-- Modelled from the spec: what one `process(sessionId)` call reports back
(§6): a result with warnings, `SessionNotFoundError`, a conflict for an
in-flight session, or the document-level error. -/
inductive ProcessReply where
  | result (r : ProcessingResult) (warnings : List String)
  | sessionNotFound
  | conflict
  | docError (e : DocError)
deriving DecidableEq

/-- Modelled from the spec: the `process` entry point against the session
store (§4.5, §6).  An unknown id reports `SessionNotFoundError`; a session
already `completed` returns the stored result as-is, without re-running the
pipeline; an in-flight session reports a conflict rather than double
aggregating; a `failed` session reports its stored error; a `created`
session runs the pipeline once and writes the terminal phase.  `run` stands
for the document pipeline, a parameter so that "without recomputing" is
visible: the reply for a completed session cannot depend on it. -/
def processCall (run : String → Except DocError (ProcessingResult × List String))
    (store : List (String × SessionPhase)) (sid : String) :
    ProcessReply × List (String × SessionPhase) :=
  match lookupSession store sid with
  | none => (.sessionNotFound, store)
  | some (.completed r ws) => (.result r ws, store)
  | some .processing => (.conflict, store)
  | some (.failed e) => (.docError e, store)
  | some (.created doc) =>
    match run doc with
    | .ok (r, ws) => (.result r ws, setSession store sid (.completed r ws))
    | .error e => (.docError e, setSession store sid (.failed e))

/-- The sum of the values of a per-category totals mapping. -/
def sumValues (m : List (String × ℚ)) : ℚ := (m.map (fun p => p.2)).sum

/-- Modelled from the spec: the warning a single raw row contributes (§4.3):
its normalization error when it fails, nothing when it normalizes. -/
def rowWarning (norm : RawRow → Except String Transaction) (r : RawRow) :
    Option String :=
  match norm r with
  | .ok _ => none
  | .error e => some e

/-- The optional date range is well-ordered: lower bound at most upper. -/
def rangeOK : Option DateRange → Prop
  | none => True
  | some r => r.min_date ≤ r.max_date

theorem sumValues_nil : sumValues [] = 0 := rfl

theorem sumValues_cons (p : String × ℚ) (m : List (String × ℚ)) :
    sumValues (p :: m) = p.2 + sumValues m := by
  simp [sumValues]

theorem sumValues_bumpTotals (m : List (String × ℚ)) (c : String) (a : ℚ) :
    sumValues (bumpTotals m c a) = sumValues m + a := by
  induction m with
  | nil => simp [bumpTotals, sumValues]
  | cons kv rest ih =>
    obtain ⟨k, v⟩ := kv
    by_cases h : k = c
    · simp only [bumpTotals, if_pos h, sumValues_cons]
      ring
    · simp only [bumpTotals, if_neg h, sumValues_cons, ih]
      ring

theorem foldl_aggStep_count (ts : List Transaction) (s : AggState) :
    (ts.foldl aggStep s).count = s.count + ts.length := by
  induction ts generalizing s with
  | nil => simp
  | cons t ts ih =>
    rw [List.foldl_cons, ih]
    simp [aggStep]
    omega

theorem foldl_aggStep_total (ts : List Transaction) (s : AggState) :
    (ts.foldl aggStep s).total = s.total + (ts.map (fun t => t.amount)).sum := by
  induction ts generalizing s with
  | nil => simp
  | cons t ts ih =>
    rw [List.foldl_cons, ih]
    simp [aggStep]
    ring

theorem foldl_aggStep_sumValues (ts : List Transaction) (s : AggState) :
    sumValues (ts.foldl aggStep s).catTotals =
      sumValues s.catTotals + (ts.map (fun t => t.amount)).sum := by
  induction ts generalizing s with
  | nil => simp
  | cons t ts ih =>
    rw [List.foldl_cons, ih]
    show sumValues (bumpTotals s.catTotals t.category t.amount) + _ = _
    rw [sumValues_bumpTotals]
    simp
    ring

theorem foldl_aggStep_range_none (ts : List Transaction) (s : AggState) :
    (ts.foldl aggStep s).range = none ↔ s.range = none ∧ ts = [] := by
  induction ts generalizing s with
  | nil => simp
  | cons t ts ih =>
    rw [List.foldl_cons, ih]
    cases hr : s.range <;> simp [aggStep, extendRange, hr]

theorem extendRange_ok (o : Option DateRange) (d : Nat) (h : rangeOK o) :
    rangeOK (extendRange o d) := by
  cases o with
  | none => simp [extendRange, rangeOK]
  | some r =>
    simp only [extendRange, rangeOK] at h ⊢
    omega

theorem foldl_aggStep_rangeOK (ts : List Transaction) (s : AggState)
    (h : rangeOK s.range) : rangeOK (ts.foldl aggStep s).range := by
  induction ts generalizing s with
  | nil => exact h
  | cons t ts ih => exact ih (aggStep s t) (extendRange_ok s.range t.date h)

theorem normalizeRows_fst (norm : RawRow → Except String Transaction)
    (rows : List RawRow) :
    (normalizeRows norm rows).1 =
      rows.filterMap (fun r => (norm r).toOption) := by
  induction rows with
  | nil => rfl
  | cons r rs ih =>
    simp only [normalizeRows, List.filterMap_cons]
    cases h : norm r <;> simp [Except.toOption, h, ih]

theorem normalizeRows_snd (norm : RawRow → Except String Transaction)
    (rows : List RawRow) :
    (normalizeRows norm rows).2 = rows.filterMap (rowWarning norm) := by
  induction rows with
  | nil => rfl
  | cons r rs ih =>
    simp only [normalizeRows, List.filterMap_cons]
    cases h : norm r <;> simp [rowWarning, h, ih]

theorem lookupSession_setSession_self (store : List (String × SessionPhase))
    (sid : String) (p : SessionPhase) :
    lookupSession (setSession store sid p) sid = some p := by
  induction store with
  | nil => simp [setSession, lookupSession]
  | cons kv rest ih =>
    obtain ⟨k, v⟩ := kv
    by_cases h : k = sid
    · simp [setSession, lookupSession, h]
    · simp [setSession, lookupSession, h, ih]

theorem lookupSession_setSession_ne (store : List (String × SessionPhase))
    (sid sid2 : String) (p : SessionPhase) (h : sid2 ≠ sid) :
    lookupSession (setSession store sid p) sid2 = lookupSession store sid2 := by
  have hns : ¬sid = sid2 := fun hq => h hq.symm
  induction store with
  | nil => simp [setSession, lookupSession, hns]
  | cons kv rest ih =>
    obtain ⟨k, v⟩ := kv
    by_cases hk : k = sid
    · subst hk
      simp [setSession, lookupSession, hns]
    · simp [setSession, lookupSession, hk, ih]

/-- The concrete transaction sequence of the spec's §8 scenario, with dates
2024-01-05, 2024-01-10, 2024-01-15 as day ordinals 5, 10, 15. -/
def demoTxs : List Transaction :=
  [⟨5, "Grocery", -120.5, "Grocery"⟩,
   ⟨10, "Salary", 2000, "Salary"⟩,
   ⟨15, "Grocery", -45.25, "Grocery"⟩]

/-- A concrete canonical transaction for witnesses. -/
def demoTxOk : Transaction := ⟨5, "Grocery", -120.5, "Grocery"⟩

/-- A concrete detector for witnesses: classifies every document as the
`original` format. -/
def demoDetect (_doc : String) : Option String := some "original"

/-- A concrete extractor for witnesses: yields one well-formed raw row and
one raw row with an unparsable date. -/
def demoExtract (_fmt _doc : String) : List RawRow :=
  [⟨"05.01.2024", "Grocery", "-120,50"⟩, ⟨"bad", "Grocery", "-120,50"⟩]

/-- A concrete normalizer for witnesses: fails on the row whose date text is
`bad`, succeeds elsewhere. -/
def demoNorm (_fmt : String) (r : RawRow) : Except String Transaction :=
  if r.dateText = "bad" then .error "bad row" else .ok demoTxOk

/-- A concrete stored processing result for witnesses. -/
def demoResult : ProcessingResult := aggregate "original" [demoTxOk]

/-- A concrete session registry for witnesses: one completed session and one
still in `created` state. -/
def demoStore : List (String × SessionPhase) :=
  [("s1", .completed demoResult []), ("s2", .created "doc2")]

/-- A concrete pipeline function for witnesses. -/
def demoRun (doc : String) : Except DocError (ProcessingResult × List String) :=
  runPipeline demoDetect demoExtract demoNorm doc

/-- C1: for every `ProcessingResult` the aggregator produces, the sum of the
values of the `totals` mapping equals `total_amount`, for any transaction
sequence, including mixed-sign and mixed-category inputs. -/
theorem C1_sum_totals_eq_total_amount (format_type : String) (ts : List Transaction) :
    sumValues (aggregate format_type ts).totals =
      (aggregate format_type ts).total_amount := by
  show sumValues (ts.foldl aggStep ⟨0, 0, [], none⟩).catTotals =
    (ts.foldl aggStep ⟨0, 0, [], none⟩).total
  rw [foldl_aggStep_sumValues, foldl_aggStep_total]
  simp [sumValues]

/-- C2: the aggregator is a pure, deterministic, total function; on the
empty transaction sequence it returns `total_amount = 0`,
`transaction_count = 0`, empty `totals` and an absent `date_range`, with no
error condition. -/
theorem C2_aggregate_empty (format_type : String) :
    aggregate format_type [] =
      { format_type := format_type, total_amount := 0, transaction_count := 0,
        totals := [], date_range := none, transactions := [] } := rfl

/-- C3: for every `ProcessingResult` the aggregator produces,
`transaction_count` equals the length of the `transactions` list and
`total_amount` is the exact sum of the amounts of all transactions — the
amounts and the sum live in `ℚ`, so there is no floating-point accumulation
error. -/
theorem C3_count_and_exact_total (format_type : String) (ts : List Transaction) :
    (aggregate format_type ts).transaction_count =
      (aggregate format_type ts).transactions.length ∧
    (aggregate format_type ts).total_amount =
      ((aggregate format_type ts).transactions.map (fun t => t.amount)).sum := by
  constructor
  · show (ts.foldl aggStep ⟨0, 0, [], none⟩).count = ts.length
    rw [foldl_aggStep_count]
    simp
  · show (ts.foldl aggStep ⟨0, 0, [], none⟩).total = (ts.map (fun t => t.amount)).sum
    rw [foldl_aggStep_total]
    simp

/-- C4: for every `ProcessingResult` the aggregator produces, `date_range`
is absent exactly when the `transactions` list is empty, and on a non-empty
list the minimum date is at most the maximum date. -/
theorem C4_date_range_ordered (format_type : String) (ts : List Transaction) :
    ((aggregate format_type ts).date_range = none ↔
      (aggregate format_type ts).transactions = []) ∧
    (∀ r, (aggregate format_type ts).date_range = some r →
      r.min_date ≤ r.max_date) := by
  constructor
  · show (ts.foldl aggStep ⟨0, 0, [], none⟩).range = none ↔ ts = []
    rw [foldl_aggStep_range_none]
    simp
  · intro r hr
    have hok : rangeOK (ts.foldl aggStep ⟨0, 0, [], none⟩).range :=
      foldl_aggStep_rangeOK ts ⟨0, 0, [], none⟩ trivial
    have hr2 : (ts.foldl aggStep ⟨0, 0, [], none⟩).range = some r := hr
    rw [hr2] at hok
    exact hok

/-- Witness for C4 at the spec's §8 scenario: the computed range is
`{min 5, max 15}` and the bounds are ordered. -/
theorem C4_date_range_ordered_witness : (5 : Nat) ≤ 15 :=
  (C4_date_range_ordered "original" demoTxs).2 ⟨5, 15⟩ (by decide)

/-- C5: whenever the document is classified and at least one raw row is
extracted, `process` succeeds no matter how many rows fail normalization:
the surviving transactions are exactly the rows the normalizer accepts, in
order — so each failing row is excluded from all aggregates and only that
row is excluded — and every failing row's reason is recorded as a warning.
A row-level error therefore never escalates to failure of the whole call. -/
theorem C5_row_errors_stay_row_scoped (detect : String → Option String)
    (extract : String → String → List RawRow)
    (norm : String → RawRow → Except String Transaction) (doc fmt : String)
    (hdet : detect doc = some fmt) (hrows : extract fmt doc ≠ []) :
    runPipeline detect extract norm doc =
      .ok (aggregate fmt ((extract fmt doc).filterMap
             (fun r => (norm fmt r).toOption)),
           (extract fmt doc).filterMap (rowWarning (norm fmt))) := by
  obtain ⟨r, rs, hx⟩ : ∃ r2 rs2, extract fmt doc = r2 :: rs2 := by
    cases hx : extract fmt doc with
    | nil => exact absurd hx hrows
    | cons r2 rs2 => exact ⟨r2, rs2, rfl⟩
  simp only [runPipeline, hdet, hx, normalizeRows_fst, normalizeRows_snd]

/-- Witness for C5: a document whose second row has an unparsable date still
processes successfully, with one transaction aggregated and the bad row
recorded as a warning. -/
theorem C5_row_errors_stay_row_scoped_witness :
    runPipeline demoDetect demoExtract demoNorm "statement.pdf" =
      .ok (aggregate "original" [demoTxOk], ["bad row"]) := by
  rw [C5_row_errors_stay_row_scoped demoDetect demoExtract demoNorm
      "statement.pdf" "original" rfl (by decide)]
  rfl

/-- C6: a `process` call on a session already `completed` returns the
identical stored result, leaves the store untouched, and does not depend on
the pipeline function (no recomputation); moreover no later `process` call,
on any session id, ever changes a stored completed result. -/
theorem C6_completed_result_stable
    (run : String → Except DocError (ProcessingResult × List String))
    (store : List (String × SessionPhase)) (sid : String)
    (r : ProcessingResult) (ws : List String)
    (h : lookupSession store sid = some (.completed r ws)) :
    processCall run store sid = (.result r ws, store) ∧
    (∀ run2 sid2,
      lookupSession (processCall run2 store sid2).2 sid =
        some (.completed r ws)) := by
  constructor
  · unfold processCall
    rw [h]
  · intro run2 sid2
    cases hl : lookupSession store sid2 with
    | none => simpa [processCall, hl] using h
    | some phase =>
      cases phase with
      | created doc =>
        have hne : sid ≠ sid2 := by
          intro he
          rw [he, hl] at h
          simp at h
        cases hrun : run2 doc with
        | ok pair =>
          obtain ⟨r2, ws2⟩ := pair
          simp only [processCall, hl, hrun]
          rw [lookupSession_setSession_ne store sid2 sid _ hne]
          exact h
        | error e =>
          simp only [processCall, hl, hrun]
          rw [lookupSession_setSession_ne store sid2 sid _ hne]
          exact h
      | processing => simpa [processCall, hl] using h
      | completed r2 ws2 => simpa [processCall, hl] using h
      | failed e => simpa [processCall, hl] using h

/-- Witness for C6: on the concrete store whose session `s1` is completed,
calling `process` on `s1` returns the stored result unchanged, and a call on
`s2` (which runs the pipeline and writes its own entry) leaves the stored
result of `s1` intact. -/
theorem C6_completed_result_stable_witness :
    processCall demoRun demoStore "s1" =
      (.result demoResult [], demoStore) ∧
    lookupSession (processCall demoRun demoStore "s2").2 "s1" =
      some (.completed demoResult []) := by
  have h := C6_completed_result_stable demoRun demoStore "s1" demoResult [] rfl
  exact ⟨h.1, h.2 demoRun "s2"⟩

/-- C7: an unexpected failure is surfaced with the one generic message: the
text the backend reports is the same whatever the internal detail was, and
the dashboard's catch block (Dashboard.tsx line 73) displays exactly that
generic message, so no internal detail reaches the user. -/
theorem C7_internal_error_is_generic (detail other : String) :
    caughtErrorText (some (surfaceInternal detail)) = internalErrorMessage ∧
    surfaceInternal detail = surfaceInternal other :=
  ⟨rfl, rfl⟩

/-- C8: the displayed progress is a pure presentation-layer simulation:
after `n` timer ticks it equals `min (5 n) 90`, hence advances by the fixed
increment 5 and never exceeds 90 while the `process` call is pending, and
the handler's final progress is 100 exactly when the pipeline settled with
its single success result. -/
theorem C8_progress_simulation :
    (∀ n, progressAfter n = min (5 * n) 90) ∧
    (∀ n, progressAfter (n + 1) = min (progressAfter n + 5) 90) ∧
    (∀ n, progressAfter n ≤ 90) ∧
    (∀ o, finalProgress o = 100 ↔ ∃ r, o = ProcessOutcome.success r) := by
  have hval : ∀ n, progressAfter n = min (5 * n) 90 := by
    intro n
    induction n with
    | zero => simp [progressAfter]
    | succ n ih =>
      show progressTick (progressAfter n) = _
      rw [ih]
      unfold progressTick
      omega
  refine ⟨hval, fun n => rfl, fun n => ?_, fun o => ?_⟩
  · rw [hval]
    omega
  · cases o with
    | success r => simp [finalProgress]
    | failure e => simp [finalProgress]

/-- C9: the completed view is rendered only when `processingData` is
present: whenever the main render yields the completed view with data `d`,
the state is `completed` and `processingData` is exactly `some d`, so
result fields are never read while no result is stored. -/
theorem C9_completed_view_requires_data (state : ProcessingState)
    (processingData : Option ProcessingResult) (progress : Nat)
    (errMsg : String) (d : ProcessingResult)
    (h : renderMain state processingData progress errMsg = .completedView d) :
    state = .completed ∧ processingData = some d := by
  cases state with
  | idle => exact absurd h (by simp [renderMain])
  | uploading => exact absurd h (by simp [renderMain])
  | processing => exact absurd h (by simp [renderMain])
  | error => exact absurd h (by simp [renderMain])
  | completed =>
    cases processingData with
    | none => exact absurd h (by simp [renderMain])
    | some x =>
      simp only [renderMain, MainView.completedView.injEq] at h
      exact ⟨rfl, by rw [h]⟩

/-- Witness for C9: rendering the completed state with a stored result. -/
theorem C9_completed_view_requires_data_witness :
    ProcessingState.completed = ProcessingState.completed ∧
    some demoResult = some demoResult :=
  C9_completed_view_requires_data .completed (some demoResult) 0 "" demoResult rfl

/-- C10: the success message collapses the format tag to two labels
(Dashboard.tsx line 232): the tag `original` displays as `Оригинальный`,
and every other tag — recognized or not — displays as `RBC`. -/
theorem C10_format_label_two_values (format_type : String) :
    formatLabel "original" = "Оригинальный" ∧
    (format_type ≠ "original" → formatLabel format_type = "RBC") := by
  refine ⟨rfl, fun h => ?_⟩
  simp [formatLabel, h]

/-- Witness for C10: an unrecognized tag displays as `RBC`. -/
theorem C10_format_label_two_values_witness :
    formatLabel "some_other_format" = "RBC" :=
  (C10_format_label_two_values "some_other_format").2 (by decide)

end SpendSense
